import Mathlib

/-!
Shallow embedding of the ghweekly commit-fetch and weekly-aggregation
pipeline (src/ghweekly/main.py and src/ghweekly/utils.py).

Time model: instants are integer day numbers with day 0 a Monday
(concretely, day 0 = 2024-12-30).  Python `datetime.weekday()` is then
`d % 7` (0 = Monday, and Lean `Int` `%` is nonnegative for a positive
modulus, exactly like Python `%`).  The pandas resample with rule
`W-MON`, `label="left"`, `closed="left"` buckets an instant T to
`T - T % 7`, the most recent Monday at or before T.  Intraday times never
change which Monday a timestamp buckets to, so day granularity is a
faithful abstraction for every property treated here.

String model: Python strings are modelled as `List Char` so that every
operation (split, strip, membership) is structurally recursive and can be
evaluated by the kernel.  `split_char` mirrors Python `str.split(sep)`
(empty segments kept), `py_strip` mirrors `str.strip()`.

Network model: the upstream API is an oracle.  For the fetcher,
`net page attempt` says what the transport layer does for a given page
request attempt (raise, or deliver a response with a status and a body).
For the aggregator, `fetch repo` abstracts one whole per-repository fetch
as its outcome (the list of commit timestamps, or an APIError or
NetworkError), matching the boundary between fetch_weekly_commits and
fetch_commits_for_repo in the source.  Observable effects (requests and
the two kinds of sleep) are returned as an event trace.
-/

namespace GhWeekly

/-- Python strings as lists of characters. -/
abbrev Str := List Char

/-- Python `s.split(sep)`: split at every separator occurrence, keeping
empty segments, as in `"a//b".split("/") == ["a", "", "b"]`. -/
def split_char (sep : Char) : List Char → List (List Char)
  | [] => [[]]
  | a :: rest =>
    match split_char sep rest with
    | [] => [[a]]
    | s :: ss => if a = sep then [] :: s :: ss else (a :: s) :: ss

/-- Python `s.strip()`: drop leading and trailing whitespace. -/
def py_strip (s : Str) : Str :=
  ((s.dropWhile Char.isWhitespace).reverse.dropWhile Char.isWhitespace).reverse

/-- utils.get_repo_short_name: `repo.split("/")[-1]`. -/
def get_repo_short_name (repo : Str) : Str :=
  (split_char '/' repo).getLastD []

/-- The per-repository well-formedness test performed by
utils.validate_repo_format: the reference is falsy-free, mentions the
separator, splits into exactly two parts, both parts strip to something
non-empty, and neither part carries surrounding whitespace. -/
def repo_ok (repo : Str) : Bool :=
  if repo = [] ∨ ¬ repo.contains '/' then false
  else
    let parts := split_char '/' repo
    decide (parts.length = 2) &&
      parts.all (fun p => !(py_strip p).isEmpty) &&
      parts.all (fun p => p = py_strip p)

/-- The validation failure signal (Python ValidationError), with the
payload distinguishing the three raise sites of fetch_weekly_commits. -/
inductive VErr where
  | emptyUsername
  | invertedRange
  | badRepo (repo : Str)
  deriving DecidableEq

/-- utils.validate_repo_format: walk the repository list and raise
ValidationError at the first malformed reference. -/
def validate_repo_format : List Str → Except VErr Unit
  | [] => .ok ()
  | repo :: rest =>
    if repo_ok repo then validate_repo_format rest
    else .error (.badRepo repo)

/-- Failure signals of one whole per-repository fetch, as caught by the
aggregator: exceptions.APIError and exceptions.NetworkError. -/
inductive FetchErr where
  | api (status : Int)
  | network
  deriving DecidableEq

/-- The result table: a pandas DataFrame with the week-start index and one
(column label, cells) pair per input repository, in input order.  Cells
are commit counts. -/
structure Frame where
  index : List Int
  cols : List (Str × List Nat)
  deriving DecidableEq

/-- pandas column assignment `df[label] = col`: every column carrying the
label is assigned (with duplicate labels, all of them). -/
def df_set (df : Frame) (label : Str) (col : List Nat) : Frame :=
  { df with cols := df.cols.map (fun c => if c.1 = label then (c.1, col) else c) }

/-- `pd.date_range(first, last, freq="7D")`: the instants
first, first + 7, ... that do not pass last (empty when last < first). -/
def date_range7 (first last : Int) : List Int :=
  if first ≤ last then
    (List.range (((last - first) / 7).toNat + 1)).map (fun k => first + 7 * (k : Int))
  else []

/-- The weekly grid of fetch_weekly_commits: both window ends are moved to
a Monday via `(0 - d.weekday()) % 7`, which adds the number of days up to
the next Monday (0 when d is already a Monday), then a 7-day range is laid
between them. -/
def code_weeks (start e : Int) : List Int :=
  date_range7 (start + (0 - start % 7) % 7) (e + (0 - e % 7) % 7)

/-- Resample with `W-MON`, `label="left"`, `closed="left"`, then reindex to
the grid with fill value 0: the cell of week w counts the fetched
timestamps whose most recent Monday at or before them is w. -/
def bucket_counts (weeks : List Int) (dates : List Int) : List Nat :=
  weeks.map (fun w => (dates.filter (fun t => t - t % 7 = w)).length)

/-- The loop body of fetch_weekly_commits for one repository: on a
successful fetch with at least one commit, write the resampled weekly
counts into the column named by the short name; on an empty fetch leave
the table unchanged; on APIError or NetworkError log and continue,
leaving the table unchanged. -/
def agg_step (fetch : Str → Except FetchErr (List Int)) (weeks : List Int)
    (df : Frame) (full_repo : Str) : Frame :=
  match fetch full_repo with
  | .ok commit_dates =>
    if commit_dates ≠ [] then
      df_set df (get_repo_short_name full_repo) (bucket_counts weeks commit_dates)
    else df
  | .error _ => df

/-- The initial result table of fetch_weekly_commits:
`pd.DataFrame(0, index=weeks, columns=repo_short_names)`, one all-zero
column per input repository under its short name, in input order. -/
def init_frame (repos : List Str) (weeks : List Int) : Frame :=
  ⟨weeks, (repos.map get_repo_short_name).map (fun nm => (nm, weeks.map (fun _ => 0)))⟩

/-- main.fetch_weekly_commits: validate the username, the window order and
the repository formats (in that order, before any fetch), build the weekly
grid and the all-zero table, then fold the per-repository fetches into it.
The per-repository Fetcher is abstracted by `fetch`, so claims can
quantify over upstream outcomes. -/
def fetch_weekly_commits (fetch : Str → Except FetchErr (List Int))
    (username : Str) (repos : List Str) (start e : Int) : Except VErr Frame :=
  if username = [] ∨ py_strip username = [] then .error .emptyUsername
  else if e < start then .error .invertedRange
  else
    match validate_repo_format repos with
    | .error m => .error m
    | .ok _ =>
      let weeks := code_weeks start e
      .ok (repos.foldl (agg_step fetch weeks) (init_frame repos weeks))

/-- One transport attempt inside fetch_commits_for_repo: requests.get
either raises a RequestException or delivers a response carrying a status
and a body.  body = none models a response whose JSON fails to parse;
body = some data models a parsed JSON array whose records each either
parse to a timestamp (some t) or are malformed (none). -/
inductive Transport where
  | fail
  | resp (status : Int) (body : Option (List (Option Int)))
  deriving DecidableEq

/-- Observable effects of fetch_commits_for_repo: a page request at a given
attempt, the sleep between retry attempts, the rate-limit courtesy sleep
after an unauthenticated page, and the break taken when the response
variable is still None after the retry loop. -/
inductive Ev where
  | request (page attempt : Nat)
  | retrySleep (page : Nat)
  | rateSleep (page : Nat)
  | noneBreak (page : Nat)
  deriving DecidableEq

/-- How the retry loop of one page ends: a response was received, the
NetworkError signal was raised, or the loop ran out without binding the
response variable. -/
inductive RetryOut where
  | got (status : Int) (body : Option (List (Option Int)))
  | netErr
  | noResp
  deriving DecidableEq

def is_retry_sleep : Ev → Bool
  | .retrySleep _ => true
  | _ => false

def is_request_ev : Ev → Bool
  | .request _ _ => true
  | _ => false

def is_rate_sleep : Ev → Bool
  | .rateSleep _ => true
  | _ => false

def is_none_break : Ev → Bool
  | .noneBreak _ => true
  | _ => false

/-- The body of `for attempt in range(max_retries + 1)`: try the request
and break on success; on a RequestException raise NetworkError when the
attempt equals max_retries and otherwise sleep and move to the next
attempt.  The second argument counts the remaining range entries, so the
head call uses `(max_retries + 1).toNat` of them, exactly the size of the
Python range (zero when max_retries is negative). -/
def retry_aux (net : Nat → Nat → Transport) (page : Nat) (maxR : Int) :
    Nat → Nat → RetryOut × List Ev
  | _, 0 => (.noResp, [])
  | attempt, n + 1 =>
    match net page attempt with
    | .resp st body => (.got st body, [.request page attempt])
    | .fail =>
      if (attempt : Int) = maxR then (.netErr, [.request page attempt])
      else
        let r := retry_aux net page maxR (attempt + 1) n
        (r.1, .request page attempt :: .retrySleep page :: r.2)

/-- The whole per-page retry loop, started at attempt 0 with the full
range budget. -/
def retry_loop (net : Nat → Nat → Transport) (page : Nat) (maxR : Int) :
    RetryOut × List Ev :=
  retry_aux net page maxR 0 (maxR + 1).toNat

/-- Per-record parsing of one JSON page: keep each record whose timestamp
field parses and skip malformed records with a warning. -/
def parse_page (data : List (Option Int)) : List Int := data.filterMap id

/-- How fetch_commits_for_repo ends: the accumulated commit timestamps, or
the APIError signal, or the NetworkError signal. -/
inductive FetchOut where
  | ok (dates : List Int)
  | apiError (status : Int)
  | networkError
  deriving DecidableEq

/-- The page loop of fetch_commits_for_repo.  `headers` is the set of HTTP
header keys supplied by the caller; the last argument is the number of
pages the `page <= max_pages` guard still allows (100 at the head call).
The branches mirror the source in order: the fallback break when the
response variable is unbound, the benign 404 and 403 breaks, the APIError
raise on any other non-200 status, the break on a body whose JSON does not
parse, the break on an empty page, and otherwise accumulation followed by
the courtesy sleep when no Authorization header is present. -/
def fetch_pages (net : Nat → Nat → Transport) (headers : List Str) (maxR : Int) :
    List Int → Nat → Nat → FetchOut × List Ev
  | acc, _, 0 => (.ok acc, [])
  | acc, page, fuel + 1 =>
    match retry_loop net page maxR with
    | (.noResp, t) => (.ok acc, t ++ [.noneBreak page])
    | (.netErr, t) => (.networkError, t)
    | (.got st body, t) =>
      if st = 404 then (.ok acc, t)
      else if st = 403 then (.ok acc, t)
      else if st ≠ 200 then (.apiError st, t)
      else
        match body with
        | none => (.ok acc, t)
        | some data =>
          if data = [] then (.ok acc, t)
          else
            let acc2 := acc ++ parse_page data
            let t2 : List Ev :=
              if headers = [] ∨ ¬ "Authorization".data ∈ headers then [.rateSleep page]
              else []
            let r := fetch_pages net headers maxR acc2 (page + 1) fuel
            (r.1, t ++ t2 ++ r.2)

/-- main.fetch_commits_for_repo: the page loop started at page 1 under the
max_pages = 100 ceiling, with an empty accumulator. -/
def fetch_commits_for_repo (net : Nat → Nat → Transport) (headers : List Str)
    (maxR : Int) : FetchOut × List Ev :=
  fetch_pages net headers maxR [] 1 100

/-- True when an Except value is an error, that is, when the modelled
Python call raises. -/
def isError {ε α : Type} : Except ε α → Bool
  | .error _ => true
  | .ok _ => false

/-- A commit record as consumed by the dual-role mode: the stable
identifier and the author timestamp. -/
structure RoleCommit where
  sha : Str
  date : Int
  deriving DecidableEq

/-- Modelled from the spec: the deduplication walk of the dual-role fetch
mode, which belongs to another version of main.py and is absent from src/
(the src/ fetch_commits_for_repo queries only the author filter and keeps
no dedup key).  Walk the merged commit list and keep the timestamp of each
record whose stable identifier was not seen before. -/
def dedup_by_sha : List RoleCommit → List Str → List Int
  | [], _ => []
  | c :: rest, seen =>
    if c.sha ∈ seen then dedup_by_sha rest seen
    else c.date :: dedup_by_sha rest (c.sha :: seen)

/-- Modelled from the spec: the dual-role fetch mode merges the commits
discovered under the author filter with those discovered under the
committer filter and deduplicates by the stable commit identifier. -/
def fetch_commits_dual_role (author_commits committer_commits : List RoleCommit) :
    List Int :=
  dedup_by_sha (author_commits ++ committer_commits) []

/- Concrete oracles used by the closed scenario theorems. -/

/-- Scenario A upstream: every repository fetch yields the commits dated
2025-01-02, 2025-01-02 and 2025-01-10 (days 3, 3 and 11 from day
0 = 2024-12-30). -/
def fetch_scenario_a : Str → Except FetchErr (List Int) := fun _ => .ok [3, 3, 11]

/-- An upstream that yields no commits. -/
def fetch_no_commits : Str → Except FetchErr (List Int) := fun _ => .ok []

/-- An upstream where a/r succeeds with one commit on day 3 and every
other repository fails with NetworkError. -/
def fetch_first_only : Str → Except FetchErr (List Int) :=
  fun repo => if repo = "a/r".data then .ok [3] else .error .network

/-- An upstream where a/r succeeds with one commit on day 3 and every
other repository fails with APIError 500. -/
def fetch_first_only_api : Str → Except FetchErr (List Int) :=
  fun repo => if repo = "a/r".data then .ok [3] else .error (.api 500)

/-- An upstream where every repository succeeds with one commit on day 3. -/
def fetch_always_one : Str → Except FetchErr (List Int) := fun _ => .ok [3]

/-- A transport with two non-empty 200 pages followed by empty 200 pages,
every attempt succeeding. -/
def net_two_pages : Nat → Nat → Transport := fun page _ =>
  if page = 1 then .resp 200 (some [some 3])
  else if page = 2 then .resp 200 (some [some 11])
  else .resp 200 (some [])

/-- A transport with one non-empty 200 page followed by empty 200 pages. -/
def net_one_page : Nat → Nat → Transport := fun page _ =>
  if page = 1 then .resp 200 (some [some 3]) else .resp 200 (some [])

/-- A transport that raises on every attempt. -/
def net_all_fail : Nat → Nat → Transport := fun _ _ => .fail

/-- A transport answering every request with a bodyless response of the
given status. -/
def net_status (st : Int) : Nat → Nat → Transport := fun _ _ => .resp st none

/-- A transport answering every request with an empty 200 page. -/
def net_empty : Nat → Nat → Transport := fun _ _ => .resp 200 (some [])

/-- Stated by the specification (not by the code): the grid length formula
using Monday-on-or-before boundaries, floor((last Monday-aligned boundary
minus first Monday-aligned boundary) / 7 days) + 1, where the
Monday-aligned boundary of d is `d - d % 7`.  Kept for comparison with the
grid the code builds. -/
def spec_grid_len (start e : Int) : Int :=
  ((e - e % 7) - (start - start % 7)) / 7 + 1

theorem retry_aux_all_fail (net : Nat → Nat → Transport) (page : Nat) (maxR : Int)
    (hfail : ∀ a, net page a = .fail) :
    ∀ (n a : Nat), 1 ≤ n → (a : Int) + (n : Int) = maxR + 1 →
      (retry_aux net page maxR a n).1 = .netErr ∧
      (retry_aux net page maxR a n).2.countP is_retry_sleep = n - 1 ∧
      (retry_aux net page maxR a n).2.countP is_request_ev = n := by
  intro n
  induction n with
  | zero => intro a h1 _; omega
  | succ m ih =>
    intro a h1 h2
    by_cases hm : (a : Int) = maxR
    · have hm0 : m = 0 := by omega
      subst hm0
      simp [retry_aux, hfail a, hm, List.countP_cons, is_retry_sleep, is_request_ev]
    · have hm1 : 1 ≤ m := by omega
      have h3 : ((a + 1 : Nat) : Int) + (m : Int) = maxR + 1 := by push_cast at h2 ⊢; omega
      obtain ⟨ih1, ih2, ih3⟩ := ih (a + 1) hm1 h3
      refine ⟨?_, ?_, ?_⟩ <;>
        simp [retry_aux, hfail a, hm, List.countP_cons, is_retry_sleep, is_request_ev,
          ih1, ih2, ih3]
      omega

theorem retry_loop_first_resp (net : Nat → Nat → Transport) (page : Nat) (maxR : Int)
    (h0 : 0 ≤ maxR) (st : Int) (body : Option (List (Option Int)))
    (h : net page 0 = .resp st body) :
    retry_loop net page maxR = (.got st body, [.request page 0]) := by
  have ht : (maxR + 1).toNat = maxR.toNat + 1 := by omega
  simp [retry_loop, ht, retry_aux, h]

theorem retry_aux_ne_noResp (net : Nat → Nat → Transport) (page : Nat) (maxR : Int) :
    ∀ (n a : Nat), 1 ≤ n → (a : Int) + (n : Int) = maxR + 1 →
      (retry_aux net page maxR a n).1 ≠ .noResp := by
  intro n
  induction n with
  | zero => intro a h1 _; omega
  | succ m ih =>
    intro a h1 h2
    cases hnet : net page a with
    | resp st body => simp [retry_aux, hnet]
    | fail =>
      by_cases hm : (a : Int) = maxR
      · simp [retry_aux, hnet, hm]
      · have hm1 : 1 ≤ m := by omega
        have h3 : ((a + 1 : Nat) : Int) + (m : Int) = maxR + 1 := by push_cast at h2 ⊢; omega
        have := ih (a + 1) hm1 h3
        simp [retry_aux, hnet, hm, this]

theorem retry_aux_no_noneBreak (net : Nat → Nat → Transport) (page : Nat) (maxR : Int) :
    ∀ (n a : Nat), (retry_aux net page maxR a n).2.countP is_none_break = 0 := by
  intro n
  induction n with
  | zero => intro a; rfl
  | succ m ih =>
    intro a
    cases hnet : net page a with
    | resp st body =>
      simp [retry_aux, hnet, is_none_break, List.countP_cons]
    | fail =>
      by_cases hm : (a : Int) = maxR <;>
        simp [retry_aux, hnet, hm, is_none_break, List.countP_cons, ih]

theorem retry_loop_ne_noResp (net : Nat → Nat → Transport) (page : Nat) (maxR : Int)
    (h0 : 0 ≤ maxR) : (retry_loop net page maxR).1 ≠ .noResp := by
  have h1 : 1 ≤ (maxR + 1).toNat := by omega
  have h2 : ((0 : Nat) : Int) + ((maxR + 1).toNat : Int) = maxR + 1 := by omega
  exact retry_aux_ne_noResp net page maxR (maxR + 1).toNat 0 h1 h2

theorem retry_loop_no_noneBreak (net : Nat → Nat → Transport) (page : Nat) (maxR : Int) :
    (retry_loop net page maxR).2.countP is_none_break = 0 :=
  retry_aux_no_noneBreak net page maxR (maxR + 1).toNat 0

theorem fetch_pages_no_noneBreak (net : Nat → Nat → Transport) (headers : List Str)
    (maxR : Int) (h0 : 0 ≤ maxR) :
    ∀ fuel acc page, (fetch_pages net headers maxR acc page fuel).2.countP is_none_break = 0 := by
  intro fuel
  induction fuel with
  | zero => intro acc page; rfl
  | succ m ih =>
    intro acc page
    rcases hr : retry_loop net page maxR with ⟨o, t⟩
    have hto : t.countP is_none_break = 0 := by
      have h := retry_loop_no_noneBreak net page maxR
      rw [hr] at h
      exact h
    cases o with
    | noResp =>
      exact absurd (by rw [hr] : (retry_loop net page maxR).1 = .noResp)
        (retry_loop_ne_noResp net page maxR h0)
    | netErr => simp [fetch_pages, hr, hto]
    | got st body =>
      simp only [fetch_pages, hr]
      split
      · exact hto
      split
      · exact hto
      split
      · exact hto
      split
      · exact hto
      split
      · exact hto
      simp only [List.countP_append, hto, ih, Nat.zero_add, Nat.add_zero]
      split <;> simp [is_none_break, List.countP_cons]

theorem validate_repo_format_isError (repos : List Str) :
    isError (validate_repo_format repos) = !repos.all repo_ok := by
  induction repos with
  | nil => rfl
  | cons r rest ih =>
    by_cases h : repo_ok r = true
    · simp only [validate_repo_format, if_pos h, List.all_cons, h, Bool.true_and]
      exact ih
    · rw [Bool.not_eq_true] at h
      simp [validate_repo_format, h, isError]

theorem validate_repo_format_ok (repos : List Str) (h : repos.all repo_ok = true) :
    validate_repo_format repos = .ok () := by
  induction repos with
  | nil => rfl
  | cons r rest ih =>
    simp only [List.all_cons, Bool.and_eq_true] at h
    simp [validate_repo_format, h.1, ih h.2]

theorem bucket_counts_length (weeks dates : List Int) :
    (bucket_counts weeks dates).length = weeks.length := by
  simp [bucket_counts]

theorem agg_step_index (fetch : Str → Except FetchErr (List Int)) (weeks : List Int)
    (df : Frame) (r : Str) : (agg_step fetch weeks df r).index = df.index := by
  cases hf : fetch r with
  | ok d =>
    by_cases hd : d = [] <;> simp [agg_step, hf, hd, df_set]
  | error m => simp [agg_step, hf]

theorem foldl_agg_index (fetch : Str → Except FetchErr (List Int)) (weeks : List Int) :
    ∀ (l : List Str) (df : Frame),
      (l.foldl (agg_step fetch weeks) df).index = df.index := by
  intro l
  induction l with
  | nil => intro df; rfl
  | cons r rest ih => intro df; rw [List.foldl_cons, ih, agg_step_index]

theorem map_fst_df_set (cols : List (Str × List Nat)) (label : Str) (col : List Nat) :
    (cols.map (fun c => if c.1 = label then (c.1, col) else c)).map Prod.fst =
      cols.map Prod.fst := by
  induction cols with
  | nil => rfl
  | cons c cs ih => by_cases h : c.1 = label <;> simp [h, ih]

theorem agg_step_names (fetch : Str → Except FetchErr (List Int)) (weeks : List Int)
    (df : Frame) (r : Str) :
    (agg_step fetch weeks df r).cols.map Prod.fst = df.cols.map Prod.fst := by
  cases hf : fetch r with
  | ok d =>
    by_cases hd : d = []
    · simp [agg_step, hf, hd]
    · simp only [agg_step, hf, hd, ne_eq, not_false_eq_true, if_true, df_set]
      exact map_fst_df_set df.cols _ _
  | error m => simp [agg_step, hf]

theorem foldl_agg_names (fetch : Str → Except FetchErr (List Int)) (weeks : List Int) :
    ∀ (l : List Str) (df : Frame),
      (l.foldl (agg_step fetch weeks) df).cols.map Prod.fst = df.cols.map Prod.fst := by
  intro l
  induction l with
  | nil => intro df; rfl
  | cons r rest ih => intro df; rw [List.foldl_cons, ih, agg_step_names]

theorem agg_step_lengths (fetch : Str → Except FetchErr (List Int)) (weeks : List Int)
    (df : Frame) (r : Str) (h : ∀ c ∈ df.cols, c.2.length = weeks.length) :
    ∀ c ∈ (agg_step fetch weeks df r).cols, c.2.length = weeks.length := by
  cases hf : fetch r with
  | error m => simpa [agg_step, hf] using h
  | ok d =>
    by_cases hd : d = []
    · simpa [agg_step, hf, hd] using h
    · have hstep : agg_step fetch weeks df r =
          df_set df (get_repo_short_name r) (bucket_counts weeks d) := by
        simp [agg_step, hf, hd]
      rw [hstep, df_set]
      intro c hc
      simp only [List.mem_map] at hc
      obtain ⟨c0, hc0, rfl⟩ := hc
      by_cases h1 : c0.1 = get_repo_short_name r
      · simp [h1, bucket_counts_length]
      · simpa [h1] using h c0 hc0

theorem foldl_agg_lengths (fetch : Str → Except FetchErr (List Int)) (weeks : List Int) :
    ∀ (l : List Str) (df : Frame), (∀ c ∈ df.cols, c.2.length = weeks.length) →
      ∀ c ∈ (l.foldl (agg_step fetch weeks) df).cols, c.2.length = weeks.length := by
  intro l
  induction l with
  | nil => intro df h; exact h
  | cons r rest ih =>
    intro df h
    rw [List.foldl_cons]
    exact ih _ (agg_step_lengths fetch weeks df r h)

theorem agg_step_zero (fetch : Str → Except FetchErr (List Int)) (weeks : List Int)
    (df : Frame) (r : Str) (nm : Str) (Z : List Nat)
    (hdf : ∀ c ∈ df.cols, c.1 = nm → c.2 = Z)
    (hr : get_repo_short_name r = nm → isError (fetch r) = true) :
    ∀ c ∈ (agg_step fetch weeks df r).cols, c.1 = nm → c.2 = Z := by
  cases hf : fetch r with
  | error m => simpa [agg_step, hf] using hdf
  | ok d =>
    by_cases hd : d = []
    · simpa [agg_step, hf, hd] using hdf
    · by_cases hn : get_repo_short_name r = nm
      · have := hr hn
        rw [hf] at this
        simp [isError] at this
      · have hstep : agg_step fetch weeks df r =
            df_set df (get_repo_short_name r) (bucket_counts weeks d) := by
          simp [agg_step, hf, hd]
        rw [hstep, df_set]
        intro c hc hcn
        simp only [List.mem_map] at hc
        obtain ⟨c0, hc0, rfl⟩ := hc
        by_cases h1 : c0.1 = get_repo_short_name r
        · rw [if_pos h1] at hcn
          exact absurd (by rw [← h1]; exact hcn) hn
        · rw [if_neg h1] at hcn ⊢
          exact hdf c0 hc0 hcn

theorem foldl_agg_zero (fetch : Str → Except FetchErr (List Int)) (weeks : List Int)
    (nm : Str) (Z : List Nat) :
    ∀ (l : List Str) (df : Frame),
      (∀ c ∈ df.cols, c.1 = nm → c.2 = Z) →
      (∀ r ∈ l, get_repo_short_name r = nm → isError (fetch r) = true) →
      ∀ c ∈ (l.foldl (agg_step fetch weeks) df).cols, c.1 = nm → c.2 = Z := by
  intro l
  induction l with
  | nil => intro df hdf _; exact hdf
  | cons r rest ih =>
    intro df hdf hl
    rw [List.foldl_cons]
    exact ih _
      (agg_step_zero fetch weeks df r nm Z hdf (hl r (List.mem_cons_self r rest)))
      (fun r2 h2 => hl r2 (List.mem_cons_of_mem r h2))

theorem cols_pair_of_map_fst (cols : List (Str × List Nat)) (a b : Str)
    (h : cols.map Prod.fst = [a, b]) : ∃ x y, cols = [(a, x), (b, y)] := by
  rcases cols with _ | ⟨⟨a1, x⟩, _ | ⟨⟨b1, y⟩, _ | ⟨c, rest⟩⟩⟩
  · simp at h
  · simp at h
  · simp only [List.map_cons, List.map_nil, List.cons.injEq, and_true] at h
    exact ⟨x, y, by rw [h.1, h.2]⟩
  · simp at h

theorem df_set_pair (w : List Int) (nm : Str) (x y B : List Nat) :
    df_set ⟨w, [(nm, x), (nm, y)]⟩ nm B = ⟨w, [(nm, B), (nm, B)]⟩ := by
  simp [df_set]

theorem init_frame_index (repos : List Str) (weeks : List Int) :
    (init_frame repos weeks).index = weeks := rfl

theorem init_frame_names (repos : List Str) (weeks : List Int) :
    (init_frame repos weeks).cols.map Prod.fst = repos.map get_repo_short_name := by
  simp only [init_frame, List.map_map]
  rfl

theorem init_frame_mem (repos : List Str) (weeks : List Int) :
    ∀ c ∈ (init_frame repos weeks).cols, c.2 = weeks.map (fun _ => 0) := by
  intro c hc
  simp only [init_frame, List.mem_map] at hc
  obtain ⟨nm, _, rfl⟩ := hc
  rfl

theorem agg_two_dup (fetch : Str → Except FetchErr (List Int)) (w : List Int)
    (r1 r2 : Str) (d2 : List Int)
    (hn : get_repo_short_name r1 = get_repo_short_name r2)
    (h2 : fetch r2 = .ok d2) (hne : d2 ≠ []) :
    [r1, r2].foldl (agg_step fetch w) (init_frame [r1, r2] w) =
      ⟨w, [(get_repo_short_name r2, bucket_counts w d2),
           (get_repo_short_name r2, bucket_counts w d2)]⟩ := by
  have hnames1 : (agg_step fetch w (init_frame [r1, r2] w) r1).cols.map Prod.fst =
      [get_repo_short_name r2, get_repo_short_name r2] := by
    rw [agg_step_names, init_frame_names]
    simp [hn]
  obtain ⟨x, y, hxy⟩ := cols_pair_of_map_fst _ _ _ hnames1
  have hidx1 : (agg_step fetch w (init_frame [r1, r2] w) r1).index = w := by
    rw [agg_step_index, init_frame_index]
  have hdf1eq : agg_step fetch w (init_frame [r1, r2] w) r1 =
      ⟨w, [(get_repo_short_name r2, x), (get_repo_short_name r2, y)]⟩ := by
    rw [show agg_step fetch w (init_frame [r1, r2] w) r1 =
      ⟨(agg_step fetch w (init_frame [r1, r2] w) r1).index,
       (agg_step fetch w (init_frame [r1, r2] w) r1).cols⟩ from rfl, hidx1, hxy]
  show agg_step fetch w (agg_step fetch w (init_frame [r1, r2] w) r1) r2 = _
  rw [hdf1eq]
  have hset : agg_step fetch w
      ⟨w, [(get_repo_short_name r2, x), (get_repo_short_name r2, y)]⟩ r2 =
      df_set ⟨w, [(get_repo_short_name r2, x), (get_repo_short_name r2, y)]⟩
        (get_repo_short_name r2) (bucket_counts w d2) := by
    simp [agg_step, h2, hne]
  rw [hset, df_set_pair]

/-- C3 (amended): fetch_weekly_commits raises a validation error exactly
when the username is empty or whitespace-only, or end is before start, or
some repository reference is malformed; the outcome holds for every fetch
oracle, so a validation failure is decided before and independently of any
network request, and end = start is accepted.  The original claim allowed
only an empty username; the code also rejects whitespace-only usernames
(see the counterexample). -/
theorem validation_error_iff (fetch : Str → Except FetchErr (List Int))
    (username : Str) (repos : List Str) (start e : Int) :
    isError (fetch_weekly_commits fetch username repos start e) = true ↔
      (py_strip username = [] ∨ e < start ∨ repos.all repo_ok = false) := by
  by_cases h1 : username = [] ∨ py_strip username = []
  · have hres : fetch_weekly_commits fetch username repos start e = .error .emptyUsername := by
      unfold fetch_weekly_commits
      rw [if_pos h1]
    rw [hres]
    simp only [isError, true_iff]
    rcases h1 with h | h
    · subst h; exact Or.inl rfl
    · exact Or.inl h
  · by_cases h2 : e < start
    · have hres : fetch_weekly_commits fetch username repos start e = .error .invertedRange := by
        unfold fetch_weekly_commits
        rw [if_neg h1, if_pos h2]
      rw [hres]
      simp only [isError, true_iff]
      exact Or.inr (Or.inl h2)
    · have hstrip : ¬ py_strip username = [] := fun h => h1 (Or.inr h)
      cases hval : validate_repo_format repos with
      | error m =>
        have hall : repos.all repo_ok = false := by
          have hvf := validate_repo_format_isError repos
          rw [hval] at hvf
          cases hh : repos.all repo_ok
          · rfl
          · rw [hh] at hvf; simp [isError] at hvf
        have hres : fetch_weekly_commits fetch username repos start e = .error m := by
          unfold fetch_weekly_commits
          rw [if_neg h1, if_neg h2, hval]
        rw [hres]
        simp only [isError, true_iff]
        exact Or.inr (Or.inr hall)
      | ok u =>
        have hall : repos.all repo_ok = true := by
          have hvf := validate_repo_format_isError repos
          rw [hval] at hvf
          cases hh : repos.all repo_ok
          · rw [hh] at hvf; simp [isError] at hvf
          · rfl
        have hres : fetch_weekly_commits fetch username repos start e =
            .ok (repos.foldl (agg_step fetch (code_weeks start e))
              (init_frame repos (code_weeks start e))) := by
          unfold fetch_weekly_commits
          rw [if_neg h1, if_neg h2, hval]
        rw [hres]
        constructor
        · intro h; simp [isError] at h
        · rintro (h | h | h)
          · exact absurd h hstrip
          · exact absurd h h2
          · rw [hall] at h; cases h

/-- C3 witness: a malformed repository reference (no separator) makes the
validation fail, and a well-formed call with end = start does not. -/
theorem validation_error_iff_witness :
    isError (fetch_weekly_commits fetch_no_commits "user".data ["owner".data] 0 0) = true ∧
    isError (fetch_weekly_commits fetch_no_commits "user".data ["org/repo".data] 0 0) = false := by
  constructor
  · exact (validation_error_iff fetch_no_commits "user".data ["owner".data] 0 0).mpr
      (Or.inr (Or.inr (by decide)))
  · cases hb : isError (fetch_weekly_commits fetch_no_commits "user".data ["org/repo".data] 0 0) with
    | false => rfl
    | true =>
      rcases (validation_error_iff fetch_no_commits "user".data ["org/repo".data] 0 0).mp hb
        with h | h | h
      · exact absurd h (by decide)
      · exact absurd h (by decide)
      · exact absurd h (by decide)

/-- C3 counterexample: a whitespace-only username is non-empty and the
window and repository list are valid, yet fetch_weekly_commits raises a
validation error, so the stated trichotomy (error exactly when the
username is empty, or end is before start, or a repository reference is
malformed) does not cover the code. -/
theorem blank_username_rejected :
    fetch_weekly_commits fetch_no_commits " ".data [] 0 0 = .error .emptyUsername ∧
    (" ".data : Str) ≠ [] ∧ ¬((0 : Int) < 0) ∧ ([] : List Str).all repo_ok = true :=
  ⟨rfl, by decide, by decide, by decide⟩

/-- C4 (amended): for every fetch oracle and valid input, the result table
of fetch_weekly_commits exists (the call never raises past validation),
its index is the weekly grid, it has exactly one column per input
repository in input order, every column has one cell per grid entry, and
the column of a repository whose fetch fails is all zeros provided every
repository sharing its short name also fails.  The original claim promised
an all-zero column unconditionally; a successful same-named repository can
fill it (see the counterexample). -/
theorem table_shape_and_zero_columns (fetch : Str → Except FetchErr (List Int))
    (username : Str) (repos : List Str) (start e : Int)
    (hu : ¬(username = [] ∨ py_strip username = []))
    (hd : ¬ e < start) (hv : repos.all repo_ok = true) :
    ∃ fr, fetch_weekly_commits fetch username repos start e = .ok fr ∧
      fr.index = code_weeks start e ∧
      fr.cols.map Prod.fst = repos.map get_repo_short_name ∧
      fr.cols.length = repos.length ∧
      (∀ c ∈ fr.cols, c.2.length = fr.index.length) ∧
      (∀ r ∈ repos,
        (∀ r2 ∈ repos, get_repo_short_name r2 = get_repo_short_name r →
          isError (fetch r2) = true) →
        ∀ c ∈ fr.cols, c.1 = get_repo_short_name r →
          c.2 = fr.index.map (fun _ => 0)) := by
  have hval := validate_repo_format_ok repos hv
  have hidx : (repos.foldl (agg_step fetch (code_weeks start e))
      (init_frame repos (code_weeks start e))).index = code_weeks start e := by
    rw [foldl_agg_index, init_frame_index]
  have hnames : (repos.foldl (agg_step fetch (code_weeks start e))
      (init_frame repos (code_weeks start e))).cols.map Prod.fst =
      repos.map get_repo_short_name := by
    rw [foldl_agg_names, init_frame_names]
  refine ⟨_, ?_, hidx, hnames, ?_, ?_, ?_⟩
  · unfold fetch_weekly_commits
    rw [if_neg hu, if_neg hd, hval]
  · have hlen := congrArg List.length hnames
    simpa using hlen
  · intro c hc
    rw [hidx]
    exact foldl_agg_lengths fetch (code_weeks start e) repos _
      (fun c0 hc0 => by rw [init_frame_mem repos (code_weeks start e) c0 hc0]; simp)
      c hc
  · intro r hr hall2 c hc hcn
    rw [hidx]
    exact foldl_agg_zero fetch (code_weeks start e) (get_repo_short_name r)
      ((code_weeks start e).map (fun _ => 0)) repos _
      (fun c0 hc0 _ => init_frame_mem repos (code_weeks start e) c0 hc0)
      hall2 c hc hcn

/-- C4 witness: two repositories with distinct short names whose fetches
both fail with NetworkError give a 2-column table over the window grid
with both columns all zero. -/
theorem table_shape_witness :
    ¬(("u".data : Str) = [] ∨ py_strip "u".data = []) ∧
    ¬((0 : Int) < 0) ∧
    (["a/x".data, "b/y".data] : List Str).all repo_ok = true ∧
    (∃ fr, fetch_weekly_commits (fun _ => .error .network) "u".data
        ["a/x".data, "b/y".data] 0 0 = .ok fr ∧
      fr.index = code_weeks 0 0 ∧
      fr.cols.map Prod.fst = (["a/x".data, "b/y".data] : List Str).map get_repo_short_name ∧
      fr.cols.length = (["a/x".data, "b/y".data] : List Str).length ∧
      (∀ c ∈ fr.cols, c.2.length = fr.index.length) ∧
      (∀ r ∈ (["a/x".data, "b/y".data] : List Str),
        (∀ r2 ∈ (["a/x".data, "b/y".data] : List Str),
          get_repo_short_name r2 = get_repo_short_name r →
          isError ((fun _ : Str => (.error .network : Except FetchErr (List Int))) r2) = true) →
        ∀ c ∈ fr.cols, c.1 = get_repo_short_name r →
          c.2 = fr.index.map (fun _ => 0))) :=
  ⟨by decide, by decide, by decide,
   table_shape_and_zero_columns (fun _ => .error .network) "u".data
     ["a/x".data, "b/y".data] 0 0 (by decide) (by decide) (by decide)⟩

/-- C4 counterexample: two repositories a/r and b/r share the short name r;
a/r succeeds with one commit (day 3), b/r fails with NetworkError.  The
column belonging to the failed repository b/r is [1, 0], not all zero,
because the pandas assignment for a/r filled every column labelled r. -/
theorem shared_short_name_error_column :
    fetch_weekly_commits fetch_first_only "u".data ["a/r".data, "b/r".data] 0 7 =
      .ok ⟨[0, 7], [("r".data, [1, 0]), ("r".data, [1, 0])]⟩ ∧
    isError (fetch_first_only "b/r".data) = true ∧
    ([1, 0] : List Nat) ≠ [0, 0] :=
  ⟨rfl, by decide, by decide⟩

/-- C1: evaluation of fetch_weekly_commits at Scenario A, window
2025-01-01 (day 2) to 2025-01-31 (day 32) with upstream commits on
2025-01-02, 2025-01-02 and 2025-01-10 (days 3, 3, 11).  The grid the code
builds runs from 2025-01-06 (day 7) to 2025-02-03 (day 35), so it does not
start at the Monday on or before the window start (2024-12-30, day 0),
that Monday is not on the grid at all, the two commits of 2025-01-02 are
dropped, and only 1 of the 3 fetched commits is counted. -/
theorem scenario_a_grid_result :
    fetch_weekly_commits fetch_scenario_a "user".data ["org/repo".data] 2 32 =
      .ok ⟨[7, 14, 21, 28, 35], [("repo".data, [1, 0, 0, 0, 0])]⟩ ∧
    (0 : Int) ∉ ([7, 14, 21, 28, 35] : List Int) ∧
    ([1, 0, 0, 0, 0] : List Nat).sum = 1 :=
  ⟨rfl, by decide, by decide⟩

/-- C2: evaluation of fetch_weekly_commits at the window 2025-01-06 (day
7, a Monday) to 2025-01-08 (day 9, a Wednesday).  The code grid is
[day 7, day 14] with 2 entries, while the grid length formula of the
specification (Monday-on-or-before boundaries) gives 1. -/
theorem monday_window_len_result :
    fetch_weekly_commits fetch_no_commits "user".data [] 7 9 = .ok ⟨[7, 14], []⟩ ∧
    ([7, 14] : List Int).length = 2 ∧
    spec_grid_len 7 9 = 1 :=
  ⟨rfl, by decide, by decide⟩

/-- C5: in the page loop of fetch_commits_for_repo, whatever was
accumulated so far, a 404 or 403 response ends the fetch benignly with the
accumulated timestamps and no raised signal, while any other non-200
status raises APIError for that status at once, with no further
accumulation.  Holds at every loop state still inside the max_pages
ceiling, for every transport oracle. -/
theorem status_handling (net : Nat → Nat → Transport) (headers : List Str)
    (maxR : Int) (acc : List Int) (page fuel : Nat) (st : Int)
    (body : Option (List (Option Int))) (t : List Ev)
    (hf : 0 < fuel) (hr : retry_loop net page maxR = (.got st body, t)) :
    ((st = 404 ∨ st = 403) →
      fetch_pages net headers maxR acc page fuel = (.ok acc, t)) ∧
    (st ≠ 404 → st ≠ 403 → st ≠ 200 →
      fetch_pages net headers maxR acc page fuel = (.apiError st, t)) := by
  obtain ⟨m, rfl⟩ : ∃ m, fuel = m + 1 := ⟨fuel - 1, by omega⟩
  constructor
  · rintro (h | h) <;> subst h <;> simp [fetch_pages, hr]
  · intro h1 h2 h3
    simp [fetch_pages, hr, h1, h2, h3]

/-- C5 witness: with a transport answering 404 the fetch returns the empty
accumulation; with 500 it raises APIError 500. -/
theorem status_handling_witness :
    (0 : Nat) < 100 ∧
    retry_loop (net_status 404) 1 3 = (.got 404 none, [.request 1 0]) ∧
    fetch_pages (net_status 404) [] 3 [] 1 100 = (.ok [], [.request 1 0]) ∧
    fetch_pages (net_status 500) [] 3 [] 1 100 = (.apiError 500, [.request 1 0]) :=
  ⟨by decide, rfl,
   (status_handling (net_status 404) [] 3 [] 1 100 404 none [.request 1 0]
     (by decide) rfl).1 (Or.inl rfl),
   (status_handling (net_status 500) [] 3 [] 1 100 500 none [.request 1 0]
     (by decide) rfl).2 (by decide) (by decide) (by decide)⟩

/-- C6: when every transport attempt of a page raises, the retry loop
raises the NetworkError signal after exactly max_retries inter-attempt
sleeps and max_retries + 1 requests; and any HTTP response at the first
attempt, whatever its status, ends the retry loop at once with a single
request and no retry sleep, so HTTP statuses are never retried. -/
theorem retry_budget_policy (net : Nat → Nat → Transport) (page : Nat) (maxR : Int)
    (h0 : 0 ≤ maxR) :
    ((∀ a, net page a = .fail) →
      (retry_loop net page maxR).1 = .netErr ∧
      (retry_loop net page maxR).2.countP is_retry_sleep = maxR.toNat ∧
      (retry_loop net page maxR).2.countP is_request_ev = maxR.toNat + 1) ∧
    (∀ st body, net page 0 = .resp st body →
      retry_loop net page maxR = (.got st body, [.request page 0])) := by
  constructor
  · intro hfail
    have h1 : 1 ≤ (maxR + 1).toNat := by omega
    have h2 : ((0 : Nat) : Int) + (((maxR + 1).toNat : Nat) : Int) = maxR + 1 := by omega
    obtain ⟨ha, hb, hc⟩ := retry_aux_all_fail net page maxR hfail (maxR + 1).toNat 0 h1 h2
    refine ⟨ha, ?_, ?_⟩
    · show (retry_aux net page maxR 0 (maxR + 1).toNat).2.countP is_retry_sleep = maxR.toNat
      rw [hb]; omega
    · show (retry_aux net page maxR 0 (maxR + 1).toNat).2.countP is_request_ev = maxR.toNat + 1
      rw [hc]; omega
  · intro st body h
    exact retry_loop_first_resp net page maxR h0 st body h

/-- C6 witness: with a transport failing on every attempt and
max_retries = 3, the loop raises NetworkError after 3 retry sleeps and 4
requests; with a response at the first attempt there is a single request
and no sleep. -/
theorem retry_budget_witness :
    (0 : Int) ≤ 3 ∧
    (retry_loop net_all_fail 1 3).1 = .netErr ∧
    (retry_loop net_all_fail 1 3).2.countP is_retry_sleep = (3 : Int).toNat ∧
    (retry_loop net_all_fail 1 3).2.countP is_request_ev = (3 : Int).toNat + 1 ∧
    retry_loop net_empty 1 3 = (.got 200 (some []), [.request 1 0]) :=
  ⟨by decide,
   ((retry_budget_policy net_all_fail 1 3 (by decide)).1 (fun _ => rfl)).1,
   ((retry_budget_policy net_all_fail 1 3 (by decide)).1 (fun _ => rfl)).2.1,
   ((retry_budget_policy net_all_fail 1 3 (by decide)).1 (fun _ => rfl)).2.2,
   (retry_budget_policy net_empty 1 3 (by decide)).2 200 (some []) rfl⟩

/-- C7 counterexample: an unauthenticated fetch whose upstream yields
exactly two non-empty pages and then an empty page inserts two rate-limit
delays (one after each non-empty page), not exactly one as claimed. -/
theorem two_page_unauth_delay_count :
    (fetch_commits_for_repo net_two_pages [] 3).2.countP is_rate_sleep = 2 ∧
    ¬((fetch_commits_for_repo net_two_pages [] 3).2.countP is_rate_sleep = 1) :=
  ⟨by decide, by decide⟩

/-- C7 (amended): the unauthenticated fetch sleeps once after every
non-empty page, so the two-non-empty-page upstream shows two delays and a
one-non-empty-page upstream shows one; the authenticated fetch of the same
shape shows zero delays; the fetched timestamps are unchanged. -/
theorem rate_delay_per_nonempty_page :
    (fetch_commits_for_repo net_two_pages [] 3).2.countP is_rate_sleep = 2 ∧
    (fetch_commits_for_repo net_two_pages ["Authorization".data] 3).2.countP is_rate_sleep = 0 ∧
    (fetch_commits_for_repo net_one_page [] 3).2.countP is_rate_sleep = 1 ∧
    (fetch_commits_for_repo net_two_pages [] 3).1 = .ok [3, 11] :=
  ⟨by decide, by decide, by decide, by decide⟩

/-- C8 counterexample: a/r and b/r share the short name r, a/r succeeds
with one commit, the later b/r fails with APIError 500; the final column r
keeps the data of the earlier a/r ([1, 0]) in both column slots, so the
later repository did not overwrite the former for this pair of
outcomes. -/
theorem duplicate_short_name_no_overwrite_on_failure :
    fetch_weekly_commits fetch_first_only_api "u".data ["a/r".data, "b/r".data] 0 7 =
      .ok ⟨[0, 7], [("r".data, [1, 0]), ("r".data, [1, 0])]⟩ ∧
    isError (fetch_first_only_api "b/r".data) = true ∧
    ([1, 0] : List Nat) ≠ ([0, 0] : List Nat) :=
  ⟨rfl, by decide, by decide⟩

/-- C8 (amended): when two repositories share a short name and the later
fetch succeeds with at least one commit, the data of the later repository
silently overwrites the column, whatever the outcome of the earlier fetch:
both slots of the shared column end up holding the later weekly counts. -/
theorem duplicate_short_name_overwrite (fetch : Str → Except FetchErr (List Int))
    (username r1 r2 : Str) (start e : Int) (d2 : List Int)
    (hu : ¬(username = [] ∨ py_strip username = []))
    (hd : ¬ e < start)
    (hv : ([r1, r2] : List Str).all repo_ok = true)
    (hn : get_repo_short_name r1 = get_repo_short_name r2)
    (h2 : fetch r2 = .ok d2) (hne : d2 ≠ []) :
    ∃ fr, fetch_weekly_commits fetch username [r1, r2] start e = .ok fr ∧
      fr.cols = [(get_repo_short_name r2, bucket_counts (code_weeks start e) d2),
        (get_repo_short_name r2, bucket_counts (code_weeks start e) d2)] := by
  have hval := validate_repo_format_ok [r1, r2] hv
  refine ⟨⟨code_weeks start e,
    [(get_repo_short_name r2, bucket_counts (code_weeks start e) d2),
     (get_repo_short_name r2, bucket_counts (code_weeks start e) d2)]⟩, ?_, rfl⟩
  unfold fetch_weekly_commits
  rw [if_neg hu, if_neg hd, hval]
  show Except.ok ([r1, r2].foldl (agg_step fetch (code_weeks start e))
      (init_frame [r1, r2] (code_weeks start e))) = _
  rw [agg_two_dup fetch (code_weeks start e) r1 r2 d2 hn h2 hne]

/-- C8 witness: both a/r and b/r succeed with a commit on day 3; the
shared column r holds the weekly counts of the later b/r in both slots. -/
theorem duplicate_short_name_overwrite_witness :
    ¬(("u".data : Str) = [] ∨ py_strip "u".data = []) ∧
    ¬((7 : Int) < 0) ∧
    (["a/r".data, "b/r".data] : List Str).all repo_ok = true ∧
    get_repo_short_name "a/r".data = get_repo_short_name "b/r".data ∧
    fetch_always_one "b/r".data = .ok [3] ∧
    ([3] : List Int) ≠ [] ∧
    (∃ fr, fetch_weekly_commits fetch_always_one "u".data ["a/r".data, "b/r".data] 0 7 =
        .ok fr ∧
      fr.cols = [(get_repo_short_name "b/r".data, bucket_counts (code_weeks 0 7) [3]),
        (get_repo_short_name "b/r".data, bucket_counts (code_weeks 0 7) [3])]) :=
  ⟨by decide, by decide, by decide, by decide, rfl, by decide,
   duplicate_short_name_overwrite fetch_always_one "u".data "a/r".data "b/r".data 0 7 [3]
     (by decide) (by decide) (by decide) (by decide) rfl (by decide)⟩

/-- C9: in the dual-role fetch mode (modelled from the spec), a commit
returned under both the author filter and the committer filter is kept
once by the stable-identifier dedup, so it contributes exactly 1 to the
count of its week, not 2. -/
theorem dual_role_dedup_counts_once (c : RoleCommit) (weeks : List Int) :
    fetch_commits_dual_role [c] [c] = [c.date] ∧
    bucket_counts weeks (fetch_commits_dual_role [c] [c]) =
      bucket_counts weeks [c.date] ∧
    bucket_counts [c.date - c.date % 7] (fetch_commits_dual_role [c] [c]) = [1] := by
  have h : fetch_commits_dual_role [c] [c] = [c.date] := by
    simp [fetch_commits_dual_role, dedup_by_sha]
  refine ⟨h, by rw [h], ?_⟩
  rw [h]
  simp [bucket_counts]

/-- C10: for any transport oracle and any nonnegative max_retries, the
fallback branch that checks for an unbound response after the retry loop
is unreachable: the fetch trace never carries a noneBreak event and the
retry loop never ends in the noResp state (it either delivers a response
or raises NetworkError on the final attempt). -/
theorem response_always_bound (net : Nat → Nat → Transport) (headers : List Str)
    (maxR : Int) (h0 : 0 ≤ maxR) :
    (fetch_commits_for_repo net headers maxR).2.countP is_none_break = 0 ∧
    ∀ page, (retry_loop net page maxR).1 ≠ .noResp :=
  ⟨fetch_pages_no_noneBreak net headers maxR h0 100 [] 1,
   fun page => retry_loop_ne_noResp net page maxR h0⟩

/-- C10 witness: instantiated at the empty-page transport with
max_retries = 3. -/
theorem response_always_bound_witness :
    (0 : Int) ≤ 3 ∧
    (fetch_commits_for_repo net_empty [] 3).2.countP is_none_break = 0 ∧
    ∀ page, (retry_loop net_empty page 3).1 ≠ .noResp :=
  ⟨by decide,
   (response_always_bound net_empty [] 3 (by decide)).1,
   (response_always_bound net_empty [] 3 (by decide)).2⟩

end GhWeekly
